import Mathlib

/-!
Verification of the db1000n job engine (Runner loop, instance scaler and the
combinator jobs of `src/job/utils.go` and the runner file) against its design
specification, via a shallow embedding of the Go code in Lean 4.

Modelling conventions:
* Go byte slices become `List Nat`; `bytes.Equal` becomes list equality
  (the nil/empty distinction is irrelevant to `bytes.Equal`).
* Go `float64` arithmetic in `computeCount` is modelled with exact rationals
  (`ℚ`); the concrete constants the spec tests (0.5, 2.0) are exactly
  representable in binary floating point, so the model agrees with the code
  on them.
* A Go job handler returns the pair `(data any, err error)`; we model this as
  `GoResult := Option Val × Option String` — note that Go lets a handler
  return non-nil data together with a non-nil error, and the model keeps
  that possibility.
* External collaborators (config fetching, YAML/JSON unmarshalling, the
  template engine, base64, decryption, `ParseConfig`/mapstructure decoding,
  the job registry `Get`) are parameters of the embedded functions: each
  embedded function takes the collaborator's result (or the collaborator
  itself as a function) as an argument, exactly at the point the Go code
  calls it.
* Goroutine scheduling is not modelled; where the code launches instances we
  record how many were launched and with which logger/metrics, which is what
  the claims are about.
-/

namespace DB1000N

/-- Dynamic values stored in the execution environment / returned as a job's
`data any` result. -/
inductive Val where
  | str (s : String) : Val
  | intVal (n : Int) : Val
  | natVal (n : Nat) : Val
deriving DecidableEq, Repr

/-- A Go `context.Context` value chain: `context.WithValue` prepends a
key/value pair, lookups scan from the front.  The stored value is the raw
`data any` of a job, which may be Go `nil` (`Option.none`). -/
abbrev Ctx : Type := List (String × Option Val)

/-- The `(data any, err error)` pair every Go job handler returns.  Errors are
modelled by their message string. -/
abbrev GoResult : Type := Option Val × Option String

/-- A job handler as resolved from the registry (`Get`), with its arguments,
global config, accumulator and logger already fixed: what remains is its
dependence on the context it is invoked with. -/
abbrev JobHandler : Type := Ctx → GoResult

/-- `context.WithValue(ctx, key, v)` — prepends the binding. -/
def withValue (ctx : Ctx) (key : String) (v : Option Val) : Ctx :=
  (key, v) :: ctx

/-- Go `unicode.IsSpace` restricted to the characters that can appear here:
the ASCII whitespace characters recognised by `strings.TrimSpace`. -/
def isGoSpace (c : Char) : Bool :=
  c = ' ' || c = '\t' || c = '\n' || c = '\r' || c = '\x0b' || c = '\x0c'

/-- Go `strings.TrimSpace`: drop whitespace from both ends of the string. -/
def goTrimSpace (s : String) : String :=
  String.mk (((s.data.dropWhile isGoSpace).reverse.dropWhile isGoSpace).reverse)

/-! ## Instance scaler (`computeCount`, runner file lines 160–172)

```go
func computeCount(count int, scaleFactor float64) int {
	scaledCount := scaleFactor * float64(utils.Max(count, 1))
	if scaledCount > 1 {
		return int(scaledCount)
	}
	if rand.Float64() < scaledCount {
		return 1
	}
	return 0
}
```

`rand.Float64()` returns a draw in `[0,1)`; the model takes the draw `r` as
an explicit argument.  Go's `int(float64)` conversion truncates toward zero;
on the branch where it is applied the value exceeds 1, so truncation and
`⌊·⌋` agree. -/

/-- Shallow embedding of `computeCount`; `r` is the value of the
`rand.Float64()` draw. -/
def computeCount (count : Int) (scaleFactor : ℚ) (r : ℚ) : Int :=
  let scaledCount : ℚ := scaleFactor * ((max count 1 : Int) : ℚ)
  if 1 < scaledCount then
    ⌊scaledCount⌋
  else if r < scaledCount then
    1
  else
    0

/-! ## Data model (`config.RawMultiConfig`, `config.MultiConfig`,
`config.Config`, `GlobalConfig`) -/

/-- An opaque per-job parameter map (`config.Args`). -/
abbrev Args : Type := List (String × Val)

/-- `config.Config`: one job entry.  Go's `Type` field is called `JobType`
here because `Type` is reserved in Lean. -/
structure Config where
  JobType : String
  Name : String
  Filter : String
  Count : Int
  Args : Args
deriving DecidableEq, Repr

/-- `config.MultiConfig`: the decoded specification. -/
structure MultiConfig where
  Jobs : List Config
deriving DecidableEq, Repr

/-- `config.RawMultiConfig`: the fetched, undecoded body plus the protected
flag. -/
structure RawMultiConfig where
  Body : List Nat
  Protected : Bool
deriving DecidableEq, Repr

/-- The process-wide `GlobalConfig` (only the fields the verified code
reads). -/
structure GlobalConfig where
  ScaleFactor : ℚ
  SkipEncrypted : Bool
  ClientID : String
deriving DecidableEq, Repr

/-- Which `*zap.Logger` a call site hands on: the runner's real logger or
`zap.NewNop()`. -/
inductive LoggerKind where
  | normal : LoggerKind
  | nop : LoggerKind
deriving DecidableEq, Repr

/-! ## Scheduler (`Runner.Run`, runner file lines 86–142)

One iteration of the `for` loop in `Runner.Run`:

```go
rawConfig := config.FetchRawMultiConfig(...)
cfg := config.Unmarshal(rawConfig.Body, r.cfgOptions.Format)
if !bytes.Equal(lastKnownConfig.Body, rawConfig.Body) && cfg != nil {
	lastKnownConfig = rawConfig
	if cancel != nil { cancel() }
	metric := &metrics.Metrics{}
	tracker = metrics.NewStatsTracker(metric)
	if rawConfig.Protected {
		cancel = r.runJobs(ctx, cfg, nil, zap.NewNop())
	} else {
		cancel = r.runJobs(ctx, cfg, metric, logger)
	}
}
```

The fetch and the unmarshal are collaborators: the cycle model takes the
fetched `RawMultiConfig` and the decode result (`none` = `cfg == nil`) as
inputs. -/

/-- The part of `Runner.Run`'s loop state a cycle reads and writes:
`lastKnownConfig.Body` and whether a current generation exists
(`cancel != nil`). -/
structure CycleState where
  lastBody : List Nat
  hasCancel : Bool
deriving DecidableEq, Repr

/-- Observable effects of one refresh cycle: whether the previous
generation's `cancel()` ran, whether `runJobs` launched a new generation,
and — when it did — which logger and whether a (non-nil) metrics object it
received. -/
structure CycleEffects where
  cancelledPrev : Bool
  launched : Bool
  launchLogger : Option LoggerKind
  launchMetrics : Option Bool
deriving DecidableEq, Repr

/-- One iteration of `Runner.Run`'s refresh loop (the generation-switch
decision).  `rawConfig` is the fetched spec, `cfg` the decode result. -/
def runCycle (s : CycleState) (rawConfig : RawMultiConfig)
    (cfg : Option MultiConfig) : CycleState × CycleEffects :=
  if s.lastBody ≠ rawConfig.Body ∧ cfg.isSome = true then
    (⟨rawConfig.Body, true⟩,
     { cancelledPrev := s.hasCancel
       launched := true
       launchLogger := some (if rawConfig.Protected then LoggerKind.nop else LoggerKind.normal)
       launchMetrics := some (!rawConfig.Protected) })
  else
    (s, { cancelledPrev := false, launched := false, launchLogger := none, launchMetrics := none })

/-! ## Launch pass (`Runner.runJobs`, runner file lines 174–231) -/

/-- What the launch pass did with one `cfg.Jobs[i]` entry. -/
inductive EntryOutcome where
  | skippedFilter : EntryOutcome
  | skippedUnknown : EntryOutcome
  | launched (instances : Nat) : EntryOutcome
deriving DecidableEq, Repr

/-- The per-entry body of `Runner.runJobs`'s loop.  `registry` is the job
registry `Get`; `render` is `templates.ParseAndExecute(logger, ·, ctx)` for
the pass's context; `r` is the `rand.Float64()` draw `computeCount` would
consume.  An entry passes the filter, resolves its handler, is rescaled when
`ScaleFactor > 0`, and launches `Count` goroutines (none when the scaled
count is not positive). -/
def runJobsEntry (registry : String → Option JobHandler) (render : String → String)
    (globalJobsCfg : GlobalConfig) (r : ℚ) (entry : Config) : EntryOutcome :=
  if entry.Filter ≠ "" ∧ goTrimSpace (render entry.Filter) ≠ "true" then
    EntryOutcome.skippedFilter
  else
    match registry entry.JobType with
    | none => EntryOutcome.skippedUnknown
    | some _ =>
      let count : Int :=
        if 0 < globalJobsCfg.ScaleFactor then
          computeCount entry.Count globalJobsCfg.ScaleFactor r
        else
          entry.Count
      EntryOutcome.launched count.toNat

/-- The whole launch pass, entry by entry in specification order; `draws i`
is the random draw available to entry `i`. -/
def runJobs (registry : String → Option JobHandler) (render : String → String)
    (globalJobsCfg : GlobalConfig) (draws : Nat → ℚ) (cfg : MultiConfig) : List EntryOutcome :=
  (List.range cfg.Jobs.length).filterMap fun i =>
    (cfg.Jobs.get? i).map (runJobsEntry registry render globalJobsCfg (draws i))

/-! ## Terminal utility jobs (`src/job/utils.go`) -/

/-- Decimal digit-string value: `some n` when `s` is nonempty and all ASCII
digits (base-10 `strconv` syntax — no sign, no underscores for base 10),
`none` otherwise. -/
def decDigits (s : String) : Option Nat :=
  if s.data ≠ [] ∧ s.data.all Char.isDigit then
    some (s.data.foldl (fun n c => n * 10 + (c.toNat - 48)) 0)
  else
    none

/-- Go `strconv.ParseUint(s, 10, bitSize)`: the parsed value and the error.
On syntax error Go returns `0`; on range overflow it returns the maximum
value for the bit size, together with a range error. -/
def goParseUint (s : String) (bitSize : Nat) : Nat × Option String :=
  match decDigits s with
  | none => (0, some "invalid syntax")
  | some n =>
    if 2 ^ bitSize - 1 < n then
      (2 ^ bitSize - 1, some "value out of range")
    else
      (n, none)

/-- Go `strconv.ParseInt(s, 10, bitSize)`: optional sign followed by digits;
out-of-range values are clamped to the signed bound and flagged. -/
def goParseInt (s : String) (bitSize : Nat) : Int × Option String :=
  let signDigits : Int × List Char :=
    match s.data with
    | '+' :: rest => (1, rest)
    | '-' :: rest => (-1, rest)
    | l => (1, l)
  match decDigits (String.mk signDigits.2) with
  | none => (0, some "invalid syntax")
  | some n =>
    let v : Int := signDigits.1 * n
    if v < -(2 ^ (bitSize - 1)) then
      (-(2 ^ (bitSize - 1)), some "value out of range")
    else if (2 ^ (bitSize - 1) - 1 : Int) < v then
      (2 ^ (bitSize - 1) - 1, some "value out of range")
    else
      (v, none)

/-- `setVarJob` ("set-value" in config, utils.go lines 62–85).  `rendered`
is the result of `templates.ParseAndExecute(logger, jobConfig.Value, ctx)`;
the mapstructure decode of the arguments is taken as already done
(`declaredType` = `jobConfig.Type`).  Note that every numeric branch returns
both the parsed value and the error, exactly as the Go code returns
`uint(val), err`: on a failed parse the data component is the zero (or
clamped) value, not Go `nil`.  The "uint" branch parses with `bitSize = 32`
and converts to platform-size `uint`; "int"/`Atoi` and "int64" use 64 bits. -/
def setVarJob (declaredType : String) (rendered : String) : GoResult :=
  if declaredType = "int" then
    ((goParseInt rendered 64).1 |> Val.intVal |> some, (goParseInt rendered 64).2)
  else if declaredType = "uint" then
    ((goParseUint rendered 32).1 |> Val.natVal |> some, (goParseUint rendered 32).2)
  else if declaredType = "int64" then
    ((goParseInt rendered 64).1 |> Val.intVal |> some, (goParseInt rendered 64).2)
  else if declaredType = "uint64" then
    ((goParseUint rendered 64).1 |> Val.natVal |> some, (goParseUint rendered 64).2)
  else
    (some (Val.str rendered), none)

/-- `sleepJob` ("sleep" in config, utils.go lines 107–119).  `decoded` is
the result of `utils.Decode(args)` (`none` = decode failure), the configured
duration; `ctxCancelled` says whether the surrounding context is already
cancelled.  Returns the Go result paired with the duration actually slept.
The Go body is `time.Sleep(jobConfig.Value)`: the context is never
consulted, so the slept duration is the full configured value regardless of
cancellation. -/
def sleepJob (decoded : Option Nat) (ctxCancelled : Bool) : GoResult × Nat :=
  match decoded with
  | none => ((none, some "error parsing job config"), 0)
  | some d => ((none, none), d)

/-! ## Combinator jobs (`src/job/utils.go`) -/

/-- `discardErrorJob` ("discard-error" in config, utils.go lines 122–148).
`parsed` is whether `ParseConfig` succeeded, `jobOpt` the registry lookup
`Get(jobConfig.Job.Type)`.  On nested failure the Go code logs at Debug and
falls through to `return data, nil`: the nested job's data value is passed
through unchanged and only the error is dropped. -/
def discardErrorJob (parsed : Bool) (jobOpt : Option JobHandler) (ctx : Ctx) : GoResult :=
  if parsed = false then
    (none, some "error parsing job config")
  else
    match jobOpt with
    | none => (none, none)
    | some job => ((job ctx).1, none)

/-- `timeoutJob` ("timeout" in config, utils.go lines 151–175).  The nested
job runs under a `context.WithTimeout` child scope; the deadline's real-time
behaviour is not modelled (no claim below depends on it), only the handler's
control flow: parse, resolve — `nil` resolution is a hard error — then
delegate. -/
def timeoutJob (parsed : Bool) (jobType : String) (jobOpt : Option JobHandler)
    (ctx : Ctx) : GoResult :=
  if parsed = false then
    (none, some "error parsing job config")
  else
    match jobOpt with
    | none => (none, some ("unknown job \"" ++ jobType ++ "\""))
    | some job => job ctx

/-- `lockJob` (utils.go lines 209–233).  The named lock is acquired with the
rendered key before the registry lookup and released on every exit path; the
cross-instance mutual exclusion itself is not modelled (single invocation
view).  `nil` resolution is a hard error, returned while holding no lock. -/
def lockJob (parsed : Bool) (renderedKey : String) (jobType : String)
    (jobOpt : Option JobHandler) (ctx : Ctx) : GoResult :=
  if parsed = false then
    (none, some "error parsing job config")
  else
    match jobOpt with
    | none => (none, some ("unknown job \"" ++ jobType ++ "\""))
    | some job => job ctx

/-- `loopJob` ("loop" in config, utils.go lines 178–207).  `cond` models
`jobConfig.Next(ctx)` — modelled from the spec: the loop-control condition,
which fails when its counter is exhausted or the surrounding scope is
cancelled, and is re-evaluated on the current context before every
iteration.  `jobOpt` is the registry lookup `Get(jobConfig.Job.Type)`,
performed afresh inside every iteration (the registry is immutable after
startup, so it is the same result each time and is passed once here).
`fuel` bounds how far the model unrolls the Go `for` loop, which itself has
no bound; every theorem below supplies enough fuel for the run it
describes.  Returns the list of contexts at which the nested job was
invoked, paired with the Go result.  On nested success the data is stored
in the context under `"data." ++ jobName` before the next condition
evaluation; on nested error the loop aborts with a wrapped error. -/
def loopJob (fuel : Nat) (cond : Ctx → Bool) (jobType : String)
    (jobOpt : Option JobHandler) (jobName : String) (ctx : Ctx) : List Ctx × GoResult :=
  match fuel with
  | 0 => ([], (none, none))
  | Nat.succ fuel =>
    if cond ctx then
      match jobOpt with
      | none => ([], (none, some ("unknown job \"" ++ jobType ++ "\"")))
      | some job =>
        match job ctx with
        | (_, some e) => ([ctx], (none, some ("error running job: " ++ e)))
        | (d, none) =>
          let rest := loopJob fuel cond jobType jobOpt jobName
            (withValue ctx ("data." ++ jobName) d)
          (ctx :: rest.1, rest.2)
    else
      ([], (none, none))

/-- The chain of contexts a run of `loopJob` with nested job `job` passes
through: step `k+1`'s context is step `k`'s context extended with the
nested job's data stored under `"data." ++ jobName`. -/
def loopChain (job : JobHandler) (jobName : String) (ctx : Ctx) : Nat → Ctx
  | 0 => ctx
  | Nat.succ k =>
    withValue (loopChain job jobName ctx k) ("data." ++ jobName)
      (job (loopChain job jobName ctx k)).1

/-! ## Encrypted job (`encryptedJob`, utils.go lines 260–305) -/

/-- The arguments `encryptedJob` decodes from its parameter map. -/
structure EncryptedArgs where
  Format : String
  Data : String
deriving DecidableEq, Repr

/-- A nested handler as `encryptedJob` invokes it: parametrised over the
logger it is handed and whether it gets the caller's (non-nil)
accumulator. -/
abbrev EncHandler : Type := LoggerKind → Bool → GoResult

/-- The steps `encryptedJob` reached.  Each flag says the corresponding call
was made (whatever its outcome); `nestedCall` records the logger and
accumulator presence handed to the nested job when it ran. -/
structure EncEffects where
  parsedArgs : Bool
  base64Decoded : Bool
  decryptAttempted : Bool
  unmarshalAttempted : Bool
  lookupAttempted : Bool
  nestedCall : Option (LoggerKind × Bool)
deriving DecidableEq, Repr

/-- `encryptedJob` ("encrypted" in config).  `parse` is the `ParseConfig`
result, `b64decode` is `base64.StdEncoding.DecodeString`, `decrypt` is
`utils.Decrypt` (plaintext and the protected flag; `none` = error),
`unmarshal` is `utils.Unmarshal` into a `config.Config`.  The
`SkipEncrypted` gate is checked first, before any of those. -/
def encryptedJob (globalConfig : GlobalConfig) (parse : Option EncryptedArgs)
    (b64decode : String → Option (List Nat))
    (decrypt : List Nat → Option (List Nat × Bool))
    (unmarshal : List Nat → String → Option Config)
    (registry : String → Option EncHandler) : GoResult × EncEffects :=
  if globalConfig.SkipEncrypted then
    ((none, some "app is configured to skip encrypted jobs"),
     ⟨false, false, false, false, false, none⟩)
  else
    match parse with
    | none => ((none, some "error parsing job config"), ⟨true, false, false, false, false, none⟩)
    | some args =>
      match b64decode args.Data with
      | none => ((none, some "illegal base64 data"), ⟨true, true, false, false, false, none⟩)
      | some decoded =>
        match decrypt decoded with
        | none => ((none, some "decryption error"), ⟨true, true, true, false, false, none⟩)
        | some (decrypted, isProtected) =>
          match unmarshal decrypted args.Format with
          | none => ((none, some "unmarshal error"), ⟨true, true, true, true, false, none⟩)
          | some jobCfg =>
            match registry jobCfg.JobType with
            | none =>
              ((none, some ("unknown job \"" ++ jobCfg.JobType ++ "\"")),
               ⟨true, true, true, true, true, none⟩)
            | some job =>
              if isProtected then
                (job LoggerKind.nop false, ⟨true, true, true, true, true, some (LoggerKind.nop, false)⟩)
              else
                (job LoggerKind.normal true, ⟨true, true, true, true, true, some (LoggerKind.normal, true)⟩)

end DB1000N

namespace DB1000N

/-- C2: `computeCount` returns `⌊scaleFactor * max(count,1)⌋` whenever that
product exceeds 1, otherwise 1 exactly when the random draw is below the
product and 0 otherwise; `computeCount 10 0.5 = 5`, `computeCount 1 2.0 = 2`,
and the result is never negative. -/
theorem computeCount_spec (count : Int) (scaleFactor r : ℚ)
    (h0 : 0 ≤ r) (h1 : r < 1) :
    (1 < scaleFactor * ((max count 1 : Int) : ℚ) →
      computeCount count scaleFactor r = ⌊scaleFactor * ((max count 1 : Int) : ℚ)⌋) ∧
    (¬ 1 < scaleFactor * ((max count 1 : Int) : ℚ) →
      ((computeCount count scaleFactor r = 1 ↔ r < scaleFactor * ((max count 1 : Int) : ℚ)) ∧
       (computeCount count scaleFactor r = 0 ↔ ¬ r < scaleFactor * ((max count 1 : Int) : ℚ)))) ∧
    computeCount 10 (1/2) r = 5 ∧
    computeCount 1 2 r = 2 ∧
    0 ≤ computeCount count scaleFactor r := by
  unfold computeCount
  refine ⟨?_, ?_, ?_, ?_, ?_⟩
  · intro h
    rw [if_pos h]
  · intro h
    rw [if_neg h]
    constructor
    · by_cases hr : r < scaleFactor * ((max count 1 : Int) : ℚ)
      · rw [if_pos hr]
        exact ⟨fun _ => hr, fun _ => rfl⟩
      · rw [if_neg hr]
        exact ⟨fun h2 => absurd h2 (by norm_num), fun h2 => absurd h2 hr⟩
    · by_cases hr : r < scaleFactor * ((max count 1 : Int) : ℚ)
      · rw [if_pos hr]
        exact ⟨fun h2 => absurd h2 (by norm_num), fun h2 => absurd hr h2⟩
      · rw [if_neg hr]
        exact ⟨fun _ => hr, fun _ => rfl⟩
  · norm_num
  · norm_num
  · by_cases h : 1 < scaleFactor * ((max count 1 : Int) : ℚ)
    · rw [if_pos h]
      have hle : (1 : ℚ) ≤ scaleFactor * ((max count 1 : Int) : ℚ) := le_of_lt h
      have hfl : (1 : Int) ≤ ⌊scaleFactor * ((max count 1 : Int) : ℚ)⌋ := by
        rw [Int.le_floor]
        exact_mod_cast hle
      omega
    · rw [if_neg h]
      by_cases hr : r < scaleFactor * ((max count 1 : Int) : ℚ)
      · rw [if_pos hr]
        norm_num
      · rw [if_neg hr]

/-- Witness for C2 at `count = 10`, `scaleFactor = 1/2`, `r = 0`. -/
theorem computeCount_spec_witness :
    (0 : ℚ) ≤ 0 ∧ (0 : ℚ) < 1 ∧ computeCount 10 (1/2) 0 = 5 := by
  refine ⟨le_refl 0, by norm_num, ?_⟩
  exact (computeCount_spec 10 (1/2) 0 (le_refl 0) (by norm_num)).2.2.1

/-- C1: a refresh cycle cancels the running generation and launches a new
one only when the fetched body differs byte-for-byte from the last applied
one and the body decodes to a non-nil configuration (and, for the
cancellation, a generation exists); a byte-identical body or a failed
decode leaves the cycle a no-op: no cancellation, no launch, and the
recorded last-applied body (indeed the whole loop state) unchanged.
Conversely, a differing body that decodes launches, cancels exactly when a
generation existed, and records the new body as applied. -/
theorem runCycle_switch_iff_changed (s : CycleState) (raw : RawMultiConfig)
    (cfg : Option MultiConfig) :
    ((runCycle s raw cfg).2.cancelledPrev = true →
       s.lastBody ≠ raw.Body ∧ cfg.isSome = true ∧ s.hasCancel = true) ∧
    ((runCycle s raw cfg).2.launched = true →
       s.lastBody ≠ raw.Body ∧ cfg.isSome = true) ∧
    ((s.lastBody = raw.Body ∨ cfg = none) →
       (runCycle s raw cfg).2.cancelledPrev = false ∧
       (runCycle s raw cfg).2.launched = false ∧
       (runCycle s raw cfg).1 = s) ∧
    (s.lastBody ≠ raw.Body → cfg.isSome = true →
       (runCycle s raw cfg).2.cancelledPrev = s.hasCancel ∧
       (runCycle s raw cfg).2.launched = true ∧
       (runCycle s raw cfg).1.lastBody = raw.Body) := by
  by_cases h : s.lastBody ≠ raw.Body ∧ cfg.isSome = true
  · obtain ⟨h1, h2⟩ := h
    unfold runCycle
    rw [if_pos ⟨h1, h2⟩]
    refine ⟨fun hc => ⟨h1, h2, hc⟩, fun _ => ⟨h1, h2⟩, ?_, fun _ _ => ⟨rfl, rfl, rfl⟩⟩
    intro hsame
    rcases hsame with hb | hn
    · exact absurd hb h1
    · rw [hn] at h2
      exact absurd h2 (by simp)
  · unfold runCycle
    rw [if_neg h]
    refine ⟨fun hc => absurd hc (by simp), fun hl => absurd hl (by simp),
      fun _ => ⟨rfl, rfl, rfl⟩, fun h1 h2 => absurd ⟨h1, h2⟩ h⟩

/-- Witness for C1: an unchanged body (with a live generation and a failing
decode) cancels nothing, launches nothing and leaves the state unchanged. -/
theorem runCycle_switch_iff_changed_witness :
    (runCycle ⟨[1], true⟩ ⟨[1], false⟩ none).2.cancelledPrev = false ∧
    (runCycle ⟨[1], true⟩ ⟨[1], false⟩ none).2.launched = false ∧
    (runCycle ⟨[1], true⟩ ⟨[1], false⟩ none).1 = ⟨[1], true⟩ :=
  (runCycle_switch_iff_changed ⟨[1], true⟩ ⟨[1], false⟩ none).2.2.1 (Or.inl rfl)

/-- C6 counterexample: a filter rendering to `" true"` — not the literal
string `"true"` — is nevertheless *not* skipped by filtering (the code
compares after `strings.TrimSpace`): the entry proceeds to handler lookup. -/
theorem runJobsEntry_filter_literal_cex :
    ((fun _ : String => " true") "f") ≠ "true" ∧
    runJobsEntry (fun _ => none) (fun _ => " true") ⟨1, false, "c"⟩ 0
        ⟨"sometype", "n", "f", 1, []⟩ ≠ EntryOutcome.skippedFilter ∧
    runJobsEntry (fun _ => none) (fun _ => " true") ⟨1, false, "c"⟩ 0
        ⟨"sometype", "n", "f", 1, []⟩ = EntryOutcome.skippedUnknown := by
  refine ⟨by decide, ?_, by decide⟩
  decide

/-- C6 (amended): in the launch pass, an entry with a non-empty filter is
skipped by filtering — before any handler lookup — exactly when the
filter's rendered value, after trimming leading and trailing whitespace, is
not `"true"`; entries with an empty filter are never filter-skipped. -/
theorem runJobsEntry_filter_skip_iff (registry : String → Option JobHandler)
    (render : String → String) (g : GlobalConfig) (r : ℚ) (entry : Config) :
    (entry.Filter ≠ "" →
      (runJobsEntry registry render g r entry = EntryOutcome.skippedFilter ↔
        goTrimSpace (render entry.Filter) ≠ "true")) ∧
    (entry.Filter = "" →
      runJobsEntry registry render g r entry ≠ EntryOutcome.skippedFilter) := by
  constructor
  · intro hf
    constructor
    · intro hs
      by_contra ht
      unfold runJobsEntry at hs
      rw [if_neg (by intro hc; exact hc.2 ht)] at hs
      revert hs
      cases registry entry.JobType <;> simp
    · intro ht
      unfold runJobsEntry
      rw [if_pos ⟨hf, ht⟩]
  · intro hf
    unfold runJobsEntry
    rw [if_neg (by intro hc; exact hc.1 hf)]
    cases registry entry.JobType <;> simp

/-- Witness for C6: a filter rendering to `"false"` skips the entry. -/
theorem runJobsEntry_filter_skip_iff_witness :
    runJobsEntry (fun _ => none) (fun _ => "false") ⟨1, false, "c"⟩ 0
        ⟨"sometype", "n", "f", 1, []⟩ = EntryOutcome.skippedFilter :=
  ((runJobsEntry_filter_skip_iff (fun _ => none) (fun _ => "false") ⟨1, false, "c"⟩ 0
    ⟨"sometype", "n", "f", 1, []⟩).1 (by decide)).mpr (by decide)

/-- C5 counterexample: `loopJob` with an unregistered nested type whose
continuation condition fails immediately (for instance because the
surrounding scope is already cancelled) performs zero iterations and
returns success — not the "unknown job" hard error the claim demands of
every invocation. -/
theorem loopJob_unknown_type_zero_iterations_cex :
    (loopJob 5 (fun _ => false) "nonexistent" none "j" []).2 = (none, none) ∧
    ((loopJob 5 (fun _ => false) "nonexistent" none "j" []).2.2.isSome = false) := by
  exact ⟨rfl, rfl⟩

/-- C5 (amended): with an unregistered nested job type, the timeout and lock
combinators return a hard "unknown job" error unconditionally (once their
own arguments parse), and the loop combinator returns that hard error
whenever its continuation condition passes at least once — a loop whose
condition fails immediately exits successfully without resolving the nested
type; the top-level launch pass instead skips such an entry without error
and with no instances launched. -/
theorem unknown_job_type_handling :
    (∀ (jobType : String) (ctx : Ctx),
      timeoutJob true jobType none ctx = (none, some ("unknown job \"" ++ jobType ++ "\""))) ∧
    (∀ (key jobType : String) (ctx : Ctx),
      lockJob true key jobType none ctx = (none, some ("unknown job \"" ++ jobType ++ "\""))) ∧
    (∀ (fuel : Nat) (cond : Ctx → Bool) (jobType jobName : String) (ctx : Ctx),
      cond ctx = true → 0 < fuel →
      loopJob fuel cond jobType none jobName ctx =
        ([], (none, some ("unknown job \"" ++ jobType ++ "\"")))) ∧
    (∀ (registry : String → Option JobHandler) (render : String → String)
       (g : GlobalConfig) (r : ℚ) (entry : Config),
      (entry.Filter = "" ∨ goTrimSpace (render entry.Filter) = "true") →
      registry entry.JobType = none →
      runJobsEntry registry render g r entry = EntryOutcome.skippedUnknown) := by
  refine ⟨fun jobType ctx => rfl, fun key jobType ctx => rfl, ?_, ?_⟩
  · intro fuel cond jobType jobName ctx hc hf
    match fuel, hf with
    | Nat.succ fuel, _ =>
      unfold loopJob
      rw [if_pos hc]
  · intro registry render g r entry hpass hreg
    unfold runJobsEntry
    rw [if_neg (by
      intro hcond
      rcases hpass with h | h
      · exact hcond.1 h
      · exact hcond.2 h), hreg]

/-- Witness for C5 at concrete inputs: timeout hard-errors, a loop whose
condition passes hard-errors, and the top level skips silently. -/
theorem unknown_job_type_handling_witness :
    timeoutJob true "nope" none [] = (none, some ("unknown job \"" ++ "nope" ++ "\"")) ∧
    loopJob 1 (fun _ => true) "nope" none "j" [] =
      ([], (none, some ("unknown job \"" ++ "nope" ++ "\""))) ∧
    runJobsEntry (fun _ => none) (fun _ => "") ⟨1, false, "c"⟩ 0
        ⟨"nope", "n", "", 1, []⟩ = EntryOutcome.skippedUnknown :=
  ⟨unknown_job_type_handling.1 "nope" [],
   unknown_job_type_handling.2.2.1 1 (fun _ => true) "nope" "j" [] rfl (by norm_num),
   unknown_job_type_handling.2.2.2 (fun _ => none) (fun _ => "") ⟨1, false, "c"⟩ 0
     ⟨"nope", "n", "", 1, []⟩ (Or.inl rfl) rfl⟩

/-- C4 counterexample: wrapping the repository's own "set-value" job with
declared type "uint" and an unparsable rendered value — that job returns
the data value `uint(0)` *together with* a parse error — `discardErrorJob`
returns success carrying that non-empty data value, not an empty result. -/
theorem discardErrorJob_nonempty_result_cex :
    (setVarJob "uint" "abc").2.isSome = true ∧
    discardErrorJob true (some (fun _ => setVarJob "uint" "abc")) [] =
      (some (Val.natVal 0), none) ∧
    (some (Val.natVal 0) : Option Val) ≠ none := by
  exact ⟨rfl, rfl, by simp⟩

/-- C4 (amended): once its own arguments parse, the discard-error job never
returns an error: with an unregistered nested type it returns success with
no result, and when the nested job runs it returns success carrying
whatever data value the nested job produced — the nested error is dropped,
and the result is empty exactly when the nested job's data was nil (as it
is for conventionally written jobs that return nil data alongside an
error). -/
theorem discardErrorJob_never_propagates (jobOpt : Option JobHandler) (ctx : Ctx) :
    (discardErrorJob true jobOpt ctx).2 = none ∧
    (jobOpt = none → discardErrorJob true jobOpt ctx = (none, none)) ∧
    (∀ job, jobOpt = some job →
      discardErrorJob true jobOpt ctx = ((job ctx).1, none)) := by
  cases jobOpt with
  | none =>
    refine ⟨rfl, fun _ => rfl, ?_⟩
    intro job h
    cases h
  | some job =>
    refine ⟨rfl, ?_, ?_⟩
    · intro h
      cases h
    · intro job2 h
      cases h
      rfl

/-- Witness for C4: discarding around the failing "set-value" job returns
the nested data with a nil error. -/
theorem discardErrorJob_never_propagates_witness :
    discardErrorJob true (some (fun _ => setVarJob "uint" "zzz")) [] =
      ((setVarJob "uint" "zzz").1, none) :=
  (discardErrorJob_never_propagates (some (fun _ => setVarJob "uint" "zzz")) []).2.2
    (fun _ => setVarJob "uint" "zzz") rfl

/-- C7: with `GlobalConfig.SkipEncrypted` set, the encrypted job fails
immediately: it returns an error and none of its later steps run — no
argument parse, no base64 decode, no decryption, no unmarshal, no registry
lookup, and no nested execution. -/
theorem encryptedJob_skip_immediate (g : GlobalConfig) (parse : Option EncryptedArgs)
    (b64decode : String → Option (List Nat))
    (decrypt : List Nat → Option (List Nat × Bool))
    (unmarshal : List Nat → String → Option Config)
    (registry : String → Option EncHandler)
    (hskip : g.SkipEncrypted = true) :
    encryptedJob g parse b64decode decrypt unmarshal registry =
      ((none, some "app is configured to skip encrypted jobs"),
       ⟨false, false, false, false, false, none⟩) := by
  unfold encryptedJob
  rw [if_pos hskip]

/-- Witness for C7 at a concrete configuration. -/
theorem encryptedJob_skip_immediate_witness :
    encryptedJob ⟨1, true, "c"⟩ none (fun _ => none) (fun _ => none) (fun _ _ => none)
        (fun _ => none) =
      ((none, some "app is configured to skip encrypted jobs"),
       ⟨false, false, false, false, false, none⟩) :=
  encryptedJob_skip_immediate ⟨1, true, "c"⟩ none (fun _ => none) (fun _ => none)
    (fun _ _ => none) (fun _ => none) rfl

/-- C9 counterexample: the configured 100-unit sleep with the surrounding
scope already cancelled still sleeps the full 100 units — it does not
return before the configured duration has elapsed, refuting the claim that
cancellation shortens the wait. -/
theorem sleepJob_cancellation_cex :
    (sleepJob (some 100) true).2 = 100 ∧ ¬ (sleepJob (some 100) true).2 < 100 := by
  exact ⟨rfl, by decide⟩

/-- C9 (amended): the sleep job blocks for exactly its configured duration,
unconditionally: its behaviour is identical whatever the cancellation state
of the surrounding scope (the Go body never consults the context), so
cancelling the scope does not cause it to stop waiting early. -/
theorem sleepJob_ignores_cancellation (decoded : Option Nat) (c1 c2 : Bool) (d : Nat) :
    sleepJob decoded c1 = sleepJob decoded c2 ∧
    (sleepJob (some d) c1).2 = d ∧
    (sleepJob (some d) c1).1 = (none, none) := by
  refine ⟨?_, rfl, rfl⟩
  cases decoded <;> rfl

/-- Reduction helper: `goParseUint` on a string of digits with value `n`. -/
theorem goParseUint_of_decDigits (s : String) (n bitSize : Nat)
    (hp : decDigits s = some n) :
    goParseUint s bitSize =
      if 2 ^ bitSize - 1 < n then
        (2 ^ bitSize - 1, some "value out of range")
      else
        (n, none) := by
  unfold goParseUint
  rw [hp]

/-- C10: the "set-value" job with declared type "uint" parses the rendered
decimal with a 32-bit bound — any value numerically at least `2^32` yields
a parse error — while declared type "uint64" accepts every value up to
`2^64 - 1`, returning it without error. -/
theorem setVarJob_uint_32bit_bound (s : String) (n : Nat)
    (hp : decDigits s = some n) :
    (2 ^ 32 ≤ n → (setVarJob "uint" s).2.isSome = true) ∧
    (n ≤ 2 ^ 64 - 1 → setVarJob "uint64" s = (some (Val.natVal n), none)) := by
  constructor
  · intro hn
    have hb : (2 : Nat) ^ 32 - 1 < n := by omega
    unfold setVarJob
    rw [if_neg (by decide : ¬ ("uint" : String) = "int"),
        if_pos (rfl : ("uint" : String) = "uint")]
    show (goParseUint s 32).2.isSome = true
    rw [goParseUint_of_decDigits s n 32 hp, if_pos hb]
    rfl
  · intro hn
    have hb : ¬ (2 : Nat) ^ 64 - 1 < n := by omega
    unfold setVarJob
    rw [if_neg (by decide : ¬ ("uint64" : String) = "int"),
        if_neg (by decide : ¬ ("uint64" : String) = "uint"),
        if_neg (by decide : ¬ ("uint64" : String) = "int64"),
        if_pos (rfl : ("uint64" : String) = "uint64")]
    show (some (Val.natVal (goParseUint s 64).1), (goParseUint s 64).2) =
      (some (Val.natVal n), none)
    rw [goParseUint_of_decDigits s n 64 hp, if_neg hb]

/-- Witness for C10 at the boundary value `2^32 = 4294967296`: rejected as
"uint", accepted as "uint64". -/
theorem setVarJob_uint_32bit_bound_witness :
    (setVarJob "uint" "4294967296").2.isSome = true ∧
    setVarJob "uint64" "4294967296" = (some (Val.natVal 4294967296), none) :=
  ⟨(setVarJob_uint_32bit_bound "4294967296" 4294967296 rfl).1 (by norm_num),
   (setVarJob_uint_32bit_bound "4294967296" 4294967296 rfl).2 (by norm_num)⟩

/-- One-step unfolding of `loopJob` with a resolvable nested job. -/
theorem loopJob_succ_eq (fuel : Nat) (cond : Ctx → Bool) (jobType : String)
    (job : JobHandler) (jobName : String) (ctx : Ctx) :
    loopJob (Nat.succ fuel) cond jobType (some job) jobName ctx =
      (if cond ctx then
        match job ctx with
        | (_, some e) => ([ctx], (none, some ("error running job: " ++ e)))
        | (d, none) =>
          let rest := loopJob fuel cond jobType (some job) jobName
            (withValue ctx ("data." ++ jobName) d)
          (ctx :: rest.1, rest.2)
      else
        ([], (none, none))) := rfl

/-- The chain from the context produced by one stored iteration is the
original chain shifted by one step. -/
theorem loopChain_shift (job : JobHandler) (jobName : String) (ctx : Ctx) (k : Nat) :
    loopChain job jobName (withValue ctx ("data." ++ jobName) (job ctx).1) k =
      loopChain job jobName ctx (k + 1) := by
  induction k with
  | zero => rfl
  | succ k ih =>
    unfold loopChain
    rw [ih]

/-- The first `N + 1` chain contexts are the starting context followed by
the first `N` chain contexts of the shifted chain. -/
theorem loopChain_range_shift (job : JobHandler) (jobName : String) (ctx : Ctx) (N : Nat) :
    (List.range (N + 1)).map (loopChain job jobName ctx) =
      ctx :: (List.range N).map
        (loopChain job jobName (withValue ctx ("data." ++ jobName) (job ctx).1)) := by
  rw [List.range_succ_eq_map, List.map_cons, List.map_map]
  have hfun : loopChain job jobName ctx ∘ Nat.succ =
      loopChain job jobName (withValue ctx ("data." ++ jobName) (job ctx).1) := by
    funext k
    exact (loopChain_shift job jobName ctx k).symm
  rw [hfun]
  rfl

/-- C3: a loop job whose continuation condition passes for exactly the
first `N` evaluations (along the chain of contexts in which each
iteration's result is stored under `"data." ++ jobName` before the next
evaluation) runs the nested job exactly `N` times, in exactly those chain
contexts — so iteration `k+1` sees iteration `k`'s stored output — and
then returns success; and if instead the condition passes once more and
the nested job errors on that iteration, the loop stops immediately —
having run the nested job exactly `N + 1` times — and itself returns an
error wrapping the nested one. -/
theorem loopJob_iterates (N : Nat) (cond : Ctx → Bool) (job : JobHandler)
    (jobType jobName : String) :
    ∀ (fuel : Nat) (ctx : Ctx), N < fuel →
    (∀ k, k < N → cond (loopChain job jobName ctx k) = true) →
    (∀ k, k < N → (job (loopChain job jobName ctx k)).2 = none) →
    (cond (loopChain job jobName ctx N) = false →
       loopJob fuel cond jobType (some job) jobName ctx =
         ((List.range N).map (loopChain job jobName ctx), (none, none))) ∧
    (∀ e, cond (loopChain job jobName ctx N) = true →
       (job (loopChain job jobName ctx N)).2 = some e →
       loopJob fuel cond jobType (some job) jobName ctx =
         ((List.range (N + 1)).map (loopChain job jobName ctx),
          (none, some ("error running job: " ++ e)))) := by
  induction N with
  | zero =>
    intro fuel ctx hfuel hcond hok
    match fuel, hfuel with
    | Nat.succ fuel, _ =>
      constructor
      · intro hstop
        have hstop0 : cond ctx = false := hstop
        rw [loopJob_succ_eq, if_neg (by rw [hstop0]; exact Bool.false_ne_true)]
        rfl
      · intro e hgo herr
        have hgo0 : cond ctx = true := hgo
        have herr0 : (job ctx).2 = some e := herr
        rw [loopJob_succ_eq, if_pos hgo0]
        cases hj : job ctx with
        | mk d e2 =>
          rw [hj] at herr0
          simp only at herr0
          subst herr0
          rfl
  | succ N ih =>
    intro fuel ctx hfuel hcond hok
    match fuel, hfuel with
    | Nat.succ fuel, hfuel =>
      have hc0 : cond ctx = true := hcond 0 (Nat.succ_pos N)
      have hk0 : (job ctx).2 = none := hok 0 (Nat.succ_pos N)
      have hfuel2 : N < fuel := Nat.lt_of_succ_lt_succ hfuel
      have hshift : ∀ k, loopChain job jobName
          (withValue ctx ("data." ++ jobName) (job ctx).1) k =
            loopChain job jobName ctx (k + 1) :=
        loopChain_shift job jobName ctx
      have ihapp := ih fuel (withValue ctx ("data." ++ jobName) (job ctx).1) hfuel2
        (by
          intro k hk
          rw [hshift k]
          exact hcond (k + 1) (Nat.succ_lt_succ hk))
        (by
          intro k hk
          rw [hshift k]
          exact hok (k + 1) (Nat.succ_lt_succ hk))
      have hstep : loopJob (Nat.succ fuel) cond jobType (some job) jobName ctx =
          (ctx :: (loopJob fuel cond jobType (some job) jobName
              (withValue ctx ("data." ++ jobName) (job ctx).1)).1,
           (loopJob fuel cond jobType (some job) jobName
              (withValue ctx ("data." ++ jobName) (job ctx).1)).2) := by
        rw [loopJob_succ_eq, if_pos hc0]
        cases hj : job ctx with
        | mk d e2 =>
          rw [hj] at hk0
          simp only at hk0
          subst hk0
          have hd : d = (job ctx).1 := by rw [hj]
          rw [hd]
      constructor
      · intro hstop
        rw [hshift N] at ihapp
        have h1 := ihapp.1 hstop
        rw [hstep, h1, loopChain_range_shift job jobName ctx N]
      · intro e hgo herr
        rw [hshift N] at ihapp
        have h2 := ihapp.2 e hgo herr
        rw [hstep, h2, loopChain_range_shift job jobName ctx (N + 1)]

/-- Witness for C3 with `N = 1`: a condition that passes only on the empty
starting context runs the nested job once, at that context, and stops. -/
theorem loopJob_iterates_witness :
    loopJob 2 (fun c => List.length c == 0) "log"
        (some (fun _ => (some (Val.natVal 7), none))) "j" [] =
      ([([] : Ctx)], (none, none)) := by
  have h := (loopJob_iterates 1 (fun c => List.length c == 0)
    (fun _ => (some (Val.natVal 7), none)) "log" "j" 2 [] (by norm_num)
    (by decide) (by decide)).1 (by decide)
  rw [h]
  rfl

/-- C8: when a generation switch happens, the runner hands `runJobs` the
no-op logger (and a nil metrics object) exactly when the fetched raw config
is marked protected, and the normal logger (with a live metrics object)
otherwise; and when the encrypted job's decryption reports the payload
protected, the nested job runs with the no-op logger and no accumulator,
while an unprotected payload's nested job runs with the original logger
and the caller's accumulator. -/
theorem protected_suppresses_observability
    (s : CycleState) (raw : RawMultiConfig) (cfg : Option MultiConfig)
    (g : GlobalConfig) (args : EncryptedArgs)
    (b64decode : String → Option (List Nat))
    (decrypt : List Nat → Option (List Nat × Bool))
    (unmarshal : List Nat → String → Option Config)
    (registry : String → Option EncHandler)
    (decoded decrypted : List Nat) (isProt : Bool) (jobCfg : Config) (job : EncHandler)
    (hdiff : s.lastBody ≠ raw.Body) (hsome : cfg.isSome = true)
    (hskip : g.SkipEncrypted = false)
    (hb : b64decode args.Data = some decoded)
    (hd : decrypt decoded = some (decrypted, isProt))
    (hu : unmarshal decrypted args.Format = some jobCfg)
    (hr : registry jobCfg.JobType = some job) :
    ((runCycle s raw cfg).2.launchLogger =
       some (if raw.Protected then LoggerKind.nop else LoggerKind.normal)) ∧
    ((runCycle s raw cfg).2.launchMetrics = some (!raw.Protected)) ∧
    ((encryptedJob g (some args) b64decode decrypt unmarshal registry).2.nestedCall =
       some (if isProt then (LoggerKind.nop, false) else (LoggerKind.normal, true))) ∧
    ((encryptedJob g (some args) b64decode decrypt unmarshal registry).1 =
       job (if isProt then LoggerKind.nop else LoggerKind.normal) (!isProt)) := by
  have hrun : runCycle s raw cfg =
      (⟨raw.Body, true⟩,
       { cancelledPrev := s.hasCancel
         launched := true
         launchLogger := some (if raw.Protected then LoggerKind.nop else LoggerKind.normal)
         launchMetrics := some (!raw.Protected) }) := by
    unfold runCycle
    rw [if_pos ⟨hdiff, hsome⟩]
  have henc : encryptedJob g (some args) b64decode decrypt unmarshal registry =
      (if isProt then
        (job LoggerKind.nop false,
         ⟨true, true, true, true, true, some (LoggerKind.nop, false)⟩)
      else
        (job LoggerKind.normal true,
         ⟨true, true, true, true, true, some (LoggerKind.normal, true)⟩)) := by
    unfold encryptedJob
    simp only [hskip, Bool.false_eq_true, if_false, hb, hd, hu, hr]
  rw [hrun, henc]
  cases hp : raw.Protected <;> cases hq : isProt <;> exact ⟨rfl, rfl, rfl, rfl⟩

/-- Witness for C8: a protected fetched config launches with the no-op
logger and nil metrics; a protected decrypted payload runs its nested job
with the no-op logger and no accumulator. -/
theorem protected_suppresses_observability_witness :
    (runCycle ⟨[], false⟩ ⟨[1], true⟩ (some ⟨[]⟩)).2.launchLogger = some LoggerKind.nop ∧
    (runCycle ⟨[], false⟩ ⟨[1], true⟩ (some ⟨[]⟩)).2.launchMetrics = some false ∧
    (encryptedJob ⟨1, false, "c"⟩ (some ⟨"json", "d"⟩) (fun _ => some [])
        (fun _ => some ([], true)) (fun _ _ => some ⟨"t", "n", "", 1, []⟩)
        (fun _ => some (fun _ _ => (none, none)))).2.nestedCall =
      some (LoggerKind.nop, false) := by
  have h := protected_suppresses_observability ⟨[], false⟩ ⟨[1], true⟩ (some ⟨[]⟩)
    ⟨1, false, "c"⟩ ⟨"json", "d"⟩ (fun _ => some []) (fun _ => some ([], true))
    (fun _ _ => some ⟨"t", "n", "", 1, []⟩) (fun _ => some (fun _ _ => (none, none)))
    [] [] true ⟨"t", "n", "", 1, []⟩ (fun _ _ => (none, none))
    (by decide) rfl rfl rfl rfl rfl rfl
  exact ⟨h.1, h.2.1, h.2.2.1⟩

end DB1000N
